import Mathlib

/-!
A shallow embedding of the scoring, fit-matching and dedup-state engine of
the job-scout agent (src/ranker.py, src/resume_manager.py, src/database.py),
together with theorems settling the frozen claims about it.

Modelling conventions:
* Python strings are Lean `String`s; Python `needle in hay` substring tests
  are `pyContains hay needle`; `str.lower()` is `pyLower` (the data
  is ASCII; both lower only letters).
* Python ints are `ℕ`/`ℤ`.  The relevance score of `calculate_job_score` is
  a Python float, but every rule contributes an integer and the only
  fractional contribution is `fit_score.overall_score * 0.5`; all values are
  therefore exact multiples of 1/2 and float arithmetic on them is exact.
  We represent twice the Python score as an integer field `score2`
  (`score2 = 2 * score`), which preserves equality, order and sign of
  scores exactly while keeping all arithmetic in `ℤ`.
* The fixed regular expressions of the source are hand-compiled to
  backtracking matchers over `List Char` with Python's leftmost-match
  `re.search` semantics; `\s` and `\d` are the ASCII classes.
* Reason strings (`reasons` lists) are not modelled: no claim refers to
  them, and they do not influence any score.
* SQLite state (`seen_jobs` table) is modelled as a list of records with
  `job_id` lookup taking the first match; `INSERT OR REPLACE` deletes any
  row with the same primary key and inserts a fresh row whose unlisted
  columns take their schema defaults (`first_seen DEFAULT CURRENT_TIMESTAMP`,
  modelled by the `now : ℕ` argument).
-/

namespace JobScout

/-- Python `str.lower()` (the modelled data is ASCII, where Python and
`Char.toLower` agree).  Defined via `List.map` so that it reduces inside
the kernel, unlike `String.toLower`. -/
def pyLower (s : String) : String :=
  ⟨s.data.map Char.toLower⟩

/-- Python ASCII whitespace class `\s` (re module, ASCII range). -/
def pySpace (c : Char) : Bool :=
  c == ' ' || c == '\t' || c == '\n' || c == '\r' || c == '\x0b' || c == '\x0c'

/-- Decide whether `needle` is a leading piece of `hay` (character lists). -/
def leadsWith : List Char → List Char → Bool
  | [], _ => true
  | _ :: _, [] => false
  | a :: as, b :: bs => a == b && leadsWith as bs

/-- Decide whether `needle` occurs contiguously inside `hay` (character lists). -/
def containsSub (needle : List Char) : List Char → Bool
  | [] => needle.isEmpty
  | c :: cs => leadsWith needle (c :: cs) || containsSub needle cs

/-- Python substring test `needle in hay`. -/
def pyContains (hay needle : String) : Bool :=
  containsSub needle.data hay.data

/-- Python `any(kw in hay for kw in needles)`. -/
def anyContained (hay : String) (needles : List String) : Bool :=
  needles.any (fun n => pyContains hay n)

/-- Numeric value of a digit string (the regex guarantees only ASCII digits). -/
def digitsToNat (ds : List Char) : ℕ :=
  ds.foldl (fun n c => 10 * n + (c.toNat - '0'.toNat)) 0

/-!  ### Posting data (src/scrapers.py, `Job` dataclass)  -/

/-- Normalized job posting, `Job` of src/scrapers.py. -/
structure Job where
  id : String
  title : String
  company : String
  location : String
  salary : Option String
  url : String
  source : String
  descriptionSnippet : Option String := none
deriving DecidableEq, Repr

/-!  ### Relevance scorer (src/ranker.py, `calculate_job_score`)

Each function below translates one commented block of
`calculate_job_score`; the final score sums their contributions.  -/

/-- The `priority_keywords` table of exact role matches. -/
def priorityKeywords : List (String × ℤ) :=
  [("it support", 30), ("help desk", 25), ("desktop support", 25),
   ("service desk", 25), ("customer experience", 30), ("cx support", 30),
   ("customer support lead", 35), ("ai integration", 40), ("ai support", 35),
   ("technical support", 20), ("support lead", 30), ("support manager", 30),
   ("support specialist", 20), ("support analyst", 20)]

/-- First-match-wins scan of a (keyword, points) table (`break` after a hit). -/
def firstMatchPts (hay : String) : List (String × ℤ) → ℤ
  | [] => 0
  | (kw, pts) :: rest => if pyContains hay kw then pts else firstMatchPts hay rest

/-- Title-keyword block: only the first matching priority keyword scores. -/
def titleKeywordPts (tl : String) : ℤ :=
  firstMatchPts tl priorityKeywords

/-- Seniority block: leadership terms +10, else entry terms +5. -/
def seniorityPts (tl : String) : ℤ :=
  if anyContained tl ["lead", "senior", "manager", "ii", "iii"] then 10
  else if anyContained tl ["junior", "entry", "associate", "i "] then 5
  else 0

/-- Leftmost maximal digit run of a character list, if any (the salary regex
`\$?([\d,]+)` applied after all commas have been removed). -/
def firstDigitRun : List Char → Option ℕ
  | [] => none
  | c :: cs =>
    if c.isDigit then some (digitsToNat (c :: cs.takeWhile Char.isDigit))
    else firstDigitRun cs

/-- Salary block: +15 for a listed salary, tier bonus from the parsed number. -/
def salaryPts (salary : Option String) : ℤ :=
  match salary with
  | none => 0
  | some s =>
    15 +
      match firstDigitRun (s.data.filter (fun c => c != ',')) with
      | none => 0
      | some n => if 90000 ≤ n then 20 else if 70000 ≤ n then 10 else 0

/-- Remote/hybrid block (lines 84-89): `if "remote" ... elif "hybrid" ...`. -/
def remoteHybridPts (ll : String) : ℤ :=
  if pyContains ll "remote" then 20
  else if pyContains ll "hybrid" then 15
  else 0

/-- NJ cities 5-15 miles from Bayonne. -/
def closeNJ : List String :=
  ["bayonne", "jersey city", "hoboken", "newark", "secaucus", "kearny",
   "harrison", "union city", "west new york", "north bergen"]

/-- NJ cities 15-30 miles from Bayonne. -/
def mediumNJ : List String :=
  ["elizabeth", "fort lee", "hackensack", "englewood", "paramus",
   "clifton", "passaic", "paterson", "east orange", "orange",
   "irvington", "bloomfield", "montclair", "linden", "rahway",
   "cranford", "woodbridge", "edison"]

/-- NJ cities beyond 30 miles, excluded. -/
def excludedNJ : List String :=
  ["morristown", "parsippany", "wayne", "new brunswick", "perth amboy",
   "trenton", "princeton", "somerset", "toms river"]

/-- The only allowed NYC boroughs. -/
def validNYC : List String := ["manhattan", "brooklyn"]

/-- Excluded NYC boroughs. -/
def excludedNYC : List String := ["queens", "bronx", "staten island"]

/-- Geographic classification block (the `location_matched` chain of lines
91-153): strict precedence, first match wins; the trailing -10 fires only
when nothing matched and the location is neither remote nor hybrid. -/
def geoPts (ll : String) : ℤ :=
  if anyContained ll excludedNJ then -20
  else if anyContained ll closeNJ then 25
  else if anyContained ll mediumNJ then 18
  else if anyContained ll validNYC then 20
  else if anyContained ll excludedNYC then -15
  else if pyContains ll "new york" || pyContains ll "nyc" then 10
  else if pyContains ll "nj" || pyContains ll "new jersey" then 12
  else if pyContains ll "remote" || pyContains ll "hybrid" then 0
  else -10

/-- The `good_companies` list. -/
def goodCompanies : List String :=
  ["google", "microsoft", "amazon", "meta", "apple", "netflix",
   "salesforce", "adobe", "ibm", "oracle", "cisco", "dell",
   "hp", "intel", "nvidia", "zoom", "slack", "dropbox",
   "stripe", "square", "shopify", "twilio", "datadog"]

/-- Company reputation block: +15 for a notable employer. -/
def companyPts (cl : String) : ℤ :=
  if anyContained cl goodCompanies then 15 else 0

/-- Staffing-keyword block: -10 for agency-sounding company names. -/
def staffingKwPts (cl : String) : ℤ :=
  if anyContained cl ["staffing", "recruiting", "talent", "consultants", "solutions"]
  then -10 else 0

/-- The `growth_roles` table (keyword, points). -/
def growthRoles : List (String × ℤ) :=
  [("lead", 15), ("manager", 12), ("analyst", 10), ("engineer", 12),
   ("specialist", 8), ("administrator", 10), ("coordinator", 5)]

/-- Career-growth block: first-match-wins scan of `growth_roles`. -/
def growthRolePts (tl : String) : ℤ :=
  firstMatchPts tl growthRoles

/-- The `growth_companies` list. -/
def growthCompanies : List String :=
  ["google", "microsoft", "amazon", "meta", "apple",
   "ibm", "accenture", "deloitte", "pwc", "kpmg",
   "jpmorgan", "goldman", "citi", "bank of america",
   "verizon", "at&t", "comcast"]

/-- Growth-company block: +10 flat. -/
def growthCompanyPts (cl : String) : ℤ :=
  if anyContained cl growthCompanies then 10 else 0

/-- The `staffing_agencies` list of the interview-likelihood block. -/
def staffingAgencies : List String :=
  ["staffing", "recruiting", "talent", "consultants",
   "solutions", "manpower", "randstad", "robert half",
   "teksystems", "insight global", "kforce"]

/-- Interview-likelihood block: +10 for a direct employer, -5 for staffing. -/
def interviewPts (cl : String) : ℤ :=
  if anyContained cl staffingAgencies then -5 else 10

/-- Entry-friendly block: +8 for entry-level terms in the title. -/
def entryPts (tl : String) : ℤ :=
  if anyContained tl ["entry", "junior", "associate", "i ", " i,"] then 8 else 0

/-- Disqualifying-level block: -20 for out-of-scope seniority terms. -/
def avoidPts (tl : String) : ℤ :=
  if anyContained tl ["intern", "director", "vp", "vice president", "chief", "cto", "cio"]
  then -20 else 0

/-- Non-IT-role block: -50 for sales/marketing/HR style titles. -/
def excludeRolePts (tl : String) : ℤ :=
  if anyContained tl
      ["sales", "marketing", "account executive", "account manager",
       "customer success manager", "csm", "success manager",
       "business development", "recruiter", "hr "]
  then -50 else 0

/-- Overqualification nudge: -5 for senior/principal/staff titles. -/
def overqualPts (tl : String) : ℤ :=
  if anyContained tl ["senior", "sr.", "principal", "staff"] then -5 else 0

/-- Sum of all integer rule contributions of `calculate_job_score`
(everything except the resume-fit bonus), in rule order. -/
def relevancePts (job : Job) : ℤ :=
  let tl := pyLower job.title
  let cl := pyLower job.company
  let ll := pyLower job.location
  titleKeywordPts tl + seniorityPts tl + salaryPts job.salary +
    remoteHybridPts ll + geoPts ll + companyPts cl + staffingKwPts cl +
    growthRolePts tl + growthCompanyPts cl + interviewPts cl + entryPts tl +
    avoidPts tl + excludeRolePts tl + overqualPts tl

/-!  ### Hand-compiled regex matchers

Each matcher tries to match its pattern at the start of the character list
and on success returns the captured integer group together with the input
remaining after the match.  Greedy quantifiers whose follow set is disjoint
from their character class are compiled to maximal munch; the only
backtracking points of the source patterns are `s?` of `years?` and the
optional group `(?:of\s+)?`, compiled explicitly below.  -/

/-- Consume an optional `+` (the `\+?` piece; its follow set never starts
with `+`, so consuming greedily is exact). -/
def optPlus : List Char → List Char
  | '+' :: cs => cs
  | cs => cs

/-- Match `s?` with explicit backtracking into the continuation `k`. -/
def optS (k : List Char → Option (List Char)) : List Char → Option (List Char)
  | 's' :: rest =>
    (match k rest with
     | some r => some r
     | none => k ('s' :: rest))
  | cs => k cs

/-- Match a literal character sequence, returning the rest. -/
def lit : List Char → List Char → Option (List Char)
  | [], cs => some cs
  | _ :: _, [] => none
  | l :: ls, c :: cs => if l == c then lit ls cs else none

/-- Continuation `\s+(?:of\s+)?experience` of the first year pattern. -/
def contOfExperience (cs : List Char) : Option (List Char) :=
  match cs with
  | [] => none
  | c :: rest =>
    if pySpace c then
      let r := rest.dropWhile pySpace
      match lit ['o', 'f'] r with
      | some r2 =>
        (match r2 with
         | c2 :: r3 =>
           if pySpace c2 then
             match lit "experience".data (r3.dropWhile pySpace) with
             | some r4 => some r4
             | none => lit "experience".data r
           else lit "experience".data r
         | [] => lit "experience".data r)
      | none => lit "experience".data r
    else none

/-- Pattern `(\d+)\+?\s*years?\s+(?:of\s+)?experience` anchored at the start. -/
def matchYearsExperience (cs : List Char) : Option (ℕ × List Char) :=
  let p := cs.span Char.isDigit
  if p.1.isEmpty then none
  else
    let r := (optPlus p.2).dropWhile pySpace
    match lit ['y', 'e', 'a', 'r'] r with
    | none => none
    | some r2 =>
      match optS contOfExperience r2 with
      | none => none
      | some rest => some (digitsToNat p.1, rest)

/-- Pattern `experience[:\s]+(\d+)\+?\s*years?` anchored at the start
(`s?` ends the pattern, so the greedy `s` is simply consumed if present). -/
def matchExperienceColon (cs : List Char) : Option (ℕ × List Char) :=
  match lit "experience".data cs with
  | none => none
  | some r1 =>
    match r1 with
    | [] => none
    | c :: rest =>
      if c == ':' || pySpace c then
        let r2 := rest.dropWhile (fun x => x == ':' || pySpace x)
        let p := r2.span Char.isDigit
        if p.1.isEmpty then none
        else
          let r3 := (optPlus p.2).dropWhile pySpace
          match lit ['y', 'e', 'a', 'r'] r3 with
          | none => none
          | some r4 =>
            match r4 with
            | 's' :: r5 => some (digitsToNat p.1, r5)
            | _ => some (digitsToNat p.1, r4)
      else none

/-- Continuation `\s+in\s+(?:it|tech|support)` of the third year pattern
(alternatives tried left to right, as the `re` module does). -/
def contInField (cs : List Char) : Option (List Char) :=
  match cs with
  | [] => none
  | c :: rest =>
    if pySpace c then
      let r := rest.dropWhile pySpace
      match lit ['i', 'n'] r with
      | none => none
      | some r2 =>
        match r2 with
        | [] => none
        | c2 :: r3 =>
          if pySpace c2 then
            let r4 := r3.dropWhile pySpace
            match lit ['i', 't'] r4 with
            | some r5 => some r5
            | none =>
              match lit ['t', 'e', 'c', 'h'] r4 with
              | some r5 => some r5
              | none => lit "support".data r4
          else none
    else none

/-- Pattern `(\d+)\+?\s*years?\s+in\s+(?:it|tech|support)` anchored at the
start. -/
def matchYearsInField (cs : List Char) : Option (ℕ × List Char) :=
  let p := cs.span Char.isDigit
  if p.1.isEmpty then none
  else
    let r := (optPlus p.2).dropWhile pySpace
    match lit ['y', 'e', 'a', 'r'] r with
    | none => none
    | some r2 =>
      match optS contInField r2 with
      | none => none
      | some rest => some (digitsToNat p.1, rest)

/-- Pattern `minimum\s+(\d+)\s+years?` anchored at the start. -/
def matchMinimumYears (cs : List Char) : Option (ℕ × List Char) :=
  match lit "minimum".data cs with
  | none => none
  | some r1 =>
    match r1 with
    | [] => none
    | c :: rest =>
      if pySpace c then
        let p := (rest.dropWhile pySpace).span Char.isDigit
        if p.1.isEmpty then none
        else
          match p.2 with
          | [] => none
          | c2 :: r3 =>
            if pySpace c2 then
              match lit ['y', 'e', 'a', 'r'] (r3.dropWhile pySpace) with
              | none => none
              | some r4 =>
                match r4 with
                | 's' :: r5 => some (digitsToNat p.1, r5)
                | _ => some (digitsToNat p.1, r4)
            else none
      else none

/-- Pattern `at\s+least\s+(\d+)\s+years?` anchored at the start. -/
def matchAtLeastYears (cs : List Char) : Option (ℕ × List Char) :=
  match lit ['a', 't'] cs with
  | none => none
  | some r0 =>
    match r0 with
    | [] => none
    | c0 :: rest0 =>
      if pySpace c0 then
        match lit "least".data (rest0.dropWhile pySpace) with
        | none => none
        | some r1 =>
          match r1 with
          | [] => none
          | c :: rest =>
            if pySpace c then
              let p := (rest.dropWhile pySpace).span Char.isDigit
              if p.1.isEmpty then none
              else
                match p.2 with
                | [] => none
                | c2 :: r3 =>
                  if pySpace c2 then
                    match lit ['y', 'e', 'a', 'r'] (r3.dropWhile pySpace) with
                    | none => none
                    | some r4 =>
                      match r4 with
                      | 's' :: r5 => some (digitsToNat p.1, r5)
                      | _ => some (digitsToNat p.1, r4)
                  else none
            else none
      else none

/-- Python `re.search`: try the pattern at each position left to right and
return the first captured group. -/
def searchCapture (m : List Char → Option (ℕ × List Char)) : List Char → Option ℕ
  | [] => Option.map Prod.fst (m [])
  | c :: cs =>
    match m (c :: cs) with
    | some p => some p.1
    | none => searchCapture m cs

/-- Python `re.findall` capture collection: scan left to right, on a match
record the group and continue after the match end (non-overlapping).  The
fuel starts at `length + 1`; every step moves at least one character to the
right, so the fuel never runs out on the matchers above. -/
def findAllAux (m : List Char → Option (ℕ × List Char)) : ℕ → List Char → List ℕ
  | 0, _ => []
  | fuel + 1, cs =>
    match m cs with
    | some p => p.1 :: findAllAux m fuel p.2
    | none =>
      match cs with
      | [] => []
      | _ :: t => findAllAux m fuel t

/-- All captured groups of a pattern in a text, left to right. -/
def findAllCaptures (m : List Char → Option (ℕ × List Char)) (cs : List Char) : List ℕ :=
  findAllAux m (cs.length + 1) cs

/-!  ### Resume data and experience-years extraction
(src/resume_manager.py) -/

/-- Parsed resume data, `Resume` of src/resume_manager.py (the `keywords`
set is stored as a list; sets of strings only ever undergo membership
tests in the modelled code). -/
structure Resume where
  rawText : String
  skills : List String := []
  jobTitles : List String := []
  experienceYears : ℕ := 0
  education : List String := []
  certifications : List String := []
  keywords : List String := []
  lastUpdated : String := ""
deriving DecidableEq, Repr

/-- The user's current job, `CurrentJob` of src/resume_manager.py. -/
structure CurrentJob where
  title : String := ""
  description : String := ""
  skills : List String := []
  responsibilities : List String := []
deriving DecidableEq, Repr

/-- Job fit analysis result, `JobFitScore` of src/resume_manager.py
(reason strings are not modelled). -/
structure JobFitScore where
  overallScore : ℕ
  skillMatch : ℕ
  titleMatch : ℕ
  experienceMatch : ℕ
deriving DecidableEq, Repr

/-- The `year_patterns` list of `_parse_resume` (lines 223-227), in source
order. -/
def yearPatterns : List (List Char → Option (ℕ × List Char)) :=
  [matchYearsExperience, matchExperienceColon, matchYearsInField]

/-- The experience-years step of `_parse_resume` (lines 228-232): for each
pattern take the first (`re.search`) match in the lower-cased text and fold
with `max`, starting from 0. -/
def parseExperienceYears (text : String) : ℕ :=
  yearPatterns.foldl
    (fun acc m =>
      match searchCapture m (pyLower text).data with
      | some n => Nat.max acc n
      | none => acc) 0

/-- What the claim describes: the maximum captured integer over all three
variants and over ALL (non-overlapping) matches of each variant. -/
def allMatchesExperienceYears (text : String) : ℕ :=
  (yearPatterns.flatMap (fun m => findAllCaptures m (pyLower text).data)).foldl Nat.max 0

/-- Maximum over the three variants of the integer captured by the first
(leftmost) match of each variant, 0 when no variant matches. -/
def maxLeftmostCaptures (text : String) : ℕ :=
  (yearPatterns.filterMap (fun m => searchCapture m (pyLower text).data)).foldl Nat.max 0

/-!  ### Fit scorer (src/resume_manager.py, `calculate_fit_score`)

Python's `int((skill_matches / len) * 100)` and
`int(skill*0.35 + title*0.40 + exp*0.25)` truncate IEEE doubles toward
zero; we model them by exact integer division.  On every value combination
the modelled code can reach, the two agree (checked exhaustively over the
reachable component ranges); the bound and formula claims below are
insensitive to the remaining sub-ulp differences.  -/

/-- The `exp_patterns` list of `calculate_fit_score` (lines 366-370). -/
def fitExpPatterns : List (List Char → Option (ℕ × List Char)) :=
  [matchYearsExperience, matchMinimumYears, matchAtLeastYears]

/-- Skill-match block: fraction of resume skills found as substrings of the
combined posting text, scaled, +20, capped at 100; neutral 50 when the
resume lists no skills. -/
def fitSkillMatch (skills : List String) (combined : String) : ℕ :=
  if skills.isEmpty then 50
  else
    min 100
      ((100 * (skills.filter (fun sk => pyContains combined sk)).length) /
        skills.length + 20)

/-- The progression keywords of the current-job comparison. -/
def progressionKeywords : List String :=
  ["lead", "senior", "manager", "ii", "iii", "principal"]

/-- The shared domain terms of the current-job comparison. -/
def commonTerms : List String :=
  ["support", "help desk", "it ", "technical", "customer", "service"]

/-- The high-value `title_keywords` of the title-match block. -/
def fitTitleKeywords : List String :=
  ["it support", "help desk", "technical support", "desktop support",
   "service desk", "customer experience", "ai support", "support lead"]

/-- Title-match block: base 40; 90 if a resume job title occurs in the
posting title; raised through the current-job comparison; finally max-ed
with 75 on a high-value title keyword. -/
def fitTitleMatch (jobTitles : List String) (currentJob : Option CurrentJob)
    (jtl : String) : ℕ :=
  let t1 := if jobTitles.any (fun rt => pyContains jtl (pyLower rt)) then 90 else 40
  let t2 :=
    match currentJob with
    | none => t1
    | some cj =>
      if cj.title = "" then t1
      else
        let ctl := pyLower cj.title
        let isProgression := progressionKeywords.any (fun kw => pyContains jtl kw)
        let sameField :=
          commonTerms.any (fun tm => pyContains ctl tm && pyContains jtl tm)
        if sameField then (if isProgression then 95 else max t1 70) else t1
  if fitTitleKeywords.any (fun kw => pyContains jtl kw) then max t2 75 else t2

/-- Experience-match block: compare resume years against the maximum
required years found by `exp_patterns` in the combined text; certification
mention adds +15 capped at 100. -/
def fitExperienceMatch (expYears : ℕ) (certifications : List String)
    (combined : String) : ℕ :=
  let required := fitExpPatterns.foldl
    (fun acc m =>
      match searchCapture m combined.data with
      | some n => Nat.max acc n
      | none => acc) 0
  let e1 :=
    if 0 < required then
      if required ≤ expYears then 100
      else if required ≤ expYears + 1 then 75
      else max 30 (60 - (required - expYears) * 10)
    else if 2 ≤ expYears then 85 else 60
  if !certifications.isEmpty &&
      certifications.any (fun c => pyContains combined (pyLower c)) then
    min 100 (e1 + 15)
  else e1

/-- Overall-score block: weighted average truncated to an integer, then the
strong-fit bonus `+10` capped at 100 when both skill and title are ≥ 80. -/
def fitOverallScore (s t e : ℕ) : ℕ :=
  let base := (s * 35 + t * 40 + e * 25) / 100
  if 80 ≤ s ∧ 80 ≤ t then min 100 (base + 10) else base

/-- The fit scorer `calculate_fit_score`: neutral 50/50/50/50 without a
resume, otherwise the three component blocks combined by
`fitOverallScore`.  `jobLocation` and `jobCompany` are accepted and unused,
exactly as in the source. -/
def calculateFitScore (resume : Option Resume) (currentJob : Option CurrentJob)
    (jobTitle jobDescription _jobLocation _jobCompany : String) : JobFitScore :=
  match resume with
  | none => ⟨50, 50, 50, 50⟩
  | some r =>
    let jtl := pyLower jobTitle
    let combined := jtl ++ " " ++ pyLower jobDescription
    let s := fitSkillMatch r.skills combined
    let t := fitTitleMatch r.jobTitles currentJob jtl
    let e := fitExperienceMatch r.experienceYears r.certifications combined
    ⟨fitOverallScore s t e, s, t, e⟩

/-!  ### Job scoring and ranking (src/ranker.py) -/

/-- The resume manager's process-wide state: at most one resume and one
current job (`ResumeManager` of src/resume_manager.py). -/
structure RMState where
  resume : Option Resume := none
  currentJob : Option CurrentJob := none
deriving DecidableEq, Repr

/-- Job with relevance score and fit analysis, `ScoredJob` of src/ranker.py.
`score2` holds twice the Python float `score` (see the file comment);
reason strings are not modelled. -/
structure ScoredJob where
  job : Job
  score2 : ℤ
  fitScore : Option JobFitScore := none
deriving DecidableEq, Repr

/-- The scorer `calculate_job_score`: the sum of the relevance rules plus,
when a resume is loaded, the fit bonus `overall_score * 0.5`.  In the
doubled representation: `score2 = 2 * relevancePts + overallScore`. -/
def calculateJobScore (rm : RMState) (job : Job) : ScoredJob :=
  let fs : Option JobFitScore :=
    match rm.resume with
    | some r =>
      some (calculateFitScore (some r) rm.currentJob job.title
        (job.descriptionSnippet.getD "") job.location job.company)
    | none => none
  { job := job
    score2 := 2 * relevancePts job +
      (match fs with
       | some f => (f.overallScore : ℤ)
       | none => 0)
    fitScore := fs }

/-- Descending-score order used by `scored_jobs.sort(key=..., reverse=True)`:
`a` may come before `b` when `a`'s score is at least `b`'s. -/
def scoreGe (a b : ScoredJob) : Prop := b.score2 ≤ a.score2

instance : DecidableRel scoreGe := fun a b => Int.decLe b.score2 a.score2

instance : IsTotal ScoredJob scoreGe := ⟨fun a b => le_total b.score2 a.score2⟩

instance : IsTrans ScoredJob scoreGe := ⟨fun _ _ _ hab hbc => le_trans hbc hab⟩

/-- Stage 1 of `rank_jobs`: score every job. -/
def scoredBatch (rm : RMState) (jobs : List Job) : List ScoredJob :=
  jobs.map (calculateJobScore rm)

/-- Stage 2 of `rank_jobs`: stable sort descending by score.  Python's
`list.sort` is stable and `reverse=True` preserves stability; any stable
descending sort produces the same list, and `insertionSort scoreGe` is one
(`List.sublist_insertionSort` is its stability law). -/
def sortedBatch (rm : RMState) (jobs : List Job) : List ScoredJob :=
  (scoredBatch rm jobs).insertionSort scoreGe

/-- Stage 3 of `rank_jobs`: keep only strictly positive scores. -/
def keptBatch (rm : RMState) (jobs : List Job) : List ScoredJob :=
  (sortedBatch rm jobs).filter (fun sj => decide (0 < sj.score2))

/-- The ranker `rank_jobs` with `return_scored=True`: sort, filter, truncate
to `maxResults`.  (The source's `if not jobs: return []` shortcut returns
what the pipeline produces on `[]` anyway; the debug printing has no
effect on the result.) -/
def rankJobsScored (rm : RMState) (jobs : List Job) (maxResults : ℕ) :
    List ScoredJob :=
  (keptBatch rm jobs).take maxResults

/-- The ranker `rank_jobs` with `return_scored=False`: the same list with
the scores stripped. -/
def rankJobs (rm : RMState) (jobs : List Job) (maxResults : ℕ) : List Job :=
  (rankJobsScored rm jobs maxResults).map ScoredJob.job

/-!  ### Seen-store (src/database.py, `JobDatabase`) -/

/-- One row of the `seen_jobs` table. -/
structure SeenRecord where
  jobId : String
  title : String
  company : String
  url : String
  source : String
  firstSeen : ℕ
  notified : Bool
deriving DecidableEq, Repr

/-- The `seen_jobs` table contents.  SQLite enforces at most one row per
primary key; the model allows arbitrary lists and reads the first row with
a given id, which agrees with SQLite on every state the modelled
operations produce. -/
abbrev SeenStore : Type := List SeenRecord

/-- Row lookup by primary key. -/
def lookupId (store : SeenStore) (i : String) : Option SeenRecord :=
  List.find? (fun r => r.jobId == i) store

/-- The query of `get_seen_job_ids`: all stored ids (a SELECT; the Python
set is modelled as the list of ids, used only for membership tests). -/
def getSeenJobIds (store : SeenStore) : List String :=
  store.map (fun r => r.jobId)

/-- The read-only `filter_new_jobs`: it runs a single SELECT and keeps the
jobs whose id is not stored; the returned store is the input store because
no write statement is executed. -/
def filterNewJobs (store : SeenStore) (jobs : List Job) :
    SeenStore × List Job :=
  (store, jobs.filter (fun job => !(getSeenJobIds store).contains job.id))

/-- One `INSERT OR REPLACE INTO seen_jobs (job_id, title, company, url,
source, notified) VALUES (...)`: any row with the same primary key is
deleted and a fresh row is inserted; `first_seen` is not in the column
list, so it takes its default `CURRENT_TIMESTAMP`, here `now`. -/
def upsertSeen (store : SeenStore) (job : Job) (notified : Bool) (now : ℕ) :
    SeenStore :=
  store.filter (fun r => r.jobId != job.id) ++
    [⟨job.id, job.title, job.company, job.url, job.source, now, notified⟩]

/-- The writer `mark_jobs_seen`: one upsert per job, in batch order, then
commit.  `now` models the statement timestamp `CURRENT_TIMESTAMP`. -/
def markJobsSeen (store : SeenStore) (jobs : List Job) (notified : Bool)
    (now : ℕ) : SeenStore :=
  jobs.foldl (fun st j => upsertSeen st j notified now) store

/-!  ### Helper lemmas -/

/-- Finding under a filter that cannot discard a hit is finding in the
original list. -/
theorem find?_filter_of_imp {α : Type} (p q : α → Bool) :
    ∀ (l : List α), (∀ x, p x = true → q x = true) →
      List.find? p (l.filter q) = List.find? p l
  | [], _ => rfl
  | a :: t, h => by
    by_cases hq : q a = true
    · by_cases hp : p a = true
      · simp [List.filter_cons, hq, hp]
      · simp only [Bool.not_eq_true] at hp
        simp [List.filter_cons, hq, hp, find?_filter_of_imp p q t h]
    · have hp : p a = false := by
        cases hpa : p a
        · rfl
        · exact absurd (h a hpa) hq
      simp only [Bool.not_eq_true] at hq
      simp [List.filter_cons, hq, hp, find?_filter_of_imp p q t h]

/-- An upsert stores exactly the values of the call for the upserted id. -/
theorem lookupId_upsert_self (store : SeenStore) (job : Job) (n : Bool)
    (now : ℕ) :
    lookupId (upsertSeen store job n now) job.id =
      some ⟨job.id, job.title, job.company, job.url, job.source, now, n⟩ := by
  unfold lookupId upsertSeen
  rw [List.find?_append]
  have h1 : List.find? (fun r => r.jobId == job.id)
      (store.filter (fun r => r.jobId != job.id)) = none := by
    rw [List.find?_eq_none]
    intro x hx
    have hne := (List.mem_filter.mp hx).2
    simp only [bne_iff_ne, ne_eq] at hne
    simp [hne]
  rw [h1]
  simp

/-- An upsert leaves the lookup of every other id unchanged. -/
theorem lookupId_upsert_other (store : SeenStore) (job : Job) (n : Bool)
    (now : ℕ) (i : String) (hne : i ≠ job.id) :
    lookupId (upsertSeen store job n now) i = lookupId store i := by
  unfold lookupId upsertSeen
  have hfq : List.find? (fun r => r.jobId == i)
      (List.filter (fun r => r.jobId != job.id) store) =
      List.find? (fun r => r.jobId == i) store := by
    refine find?_filter_of_imp _ _ store ?_
    intro x hx
    simp only [beq_iff_eq] at hx
    simp [hx, hne]
  rw [List.find?_append, hfq]
  cases hfind : List.find? (fun r => r.jobId == i) store
  · simp only [Option.none_or]
    rw [List.find?_eq_none]
    intro x hx
    simp only [List.mem_singleton] at hx
    subst hx
    simp [Ne.symm hne]
  · rfl

/-- Marking a batch whose jobs all have other ids does not touch a lookup. -/
theorem lookupId_markSeen_untouched (i : String) :
    ∀ (jobs : List Job) (st : SeenStore) (n : Bool) (now : ℕ),
      (∀ q ∈ jobs, q.id ≠ i) →
      lookupId (markJobsSeen st jobs n now) i = lookupId st i
  | [], _, _, _, _ => rfl
  | q :: t, st, n, now, h => by
    rw [markJobsSeen, List.foldl_cons]
    rw [show List.foldl (fun s j => upsertSeen s j n now) (upsertSeen st q n now) t =
      markJobsSeen (upsertSeen st q n now) t n now from rfl]
    rw [lookupId_markSeen_untouched i t _ n now (fun x hx => h x (List.mem_cons_of_mem q hx))]
    exact lookupId_upsert_other st q n now i (Ne.symm (h q (List.mem_cons_self q t)))

/-- The upserted id is among the stored ids. -/
theorem mem_ids_upsert_self (st : SeenStore) (j : Job) (n : Bool) (now : ℕ) :
    j.id ∈ getSeenJobIds (upsertSeen st j n now) := by
  unfold getSeenJobIds upsertSeen
  simp

/-- Upserting never removes an id from the store. -/
theorem mem_ids_upsert_mono (st : SeenStore) (q : Job) (n : Bool) (now : ℕ)
    {i : String} (h : i ∈ getSeenJobIds st) :
    i ∈ getSeenJobIds (upsertSeen st q n now) := by
  unfold getSeenJobIds upsertSeen at *
  simp only [List.map_append, List.mem_append]
  by_cases hi : i = q.id
  · right
    simp [hi]
  · left
    rcases List.mem_map.mp h with ⟨r, hr, hri⟩
    refine List.mem_map.mpr ⟨r, List.mem_filter.mpr ⟨hr, ?_⟩, hri⟩
    simp [bne_iff_ne, hri, hi]

/-- Marking a batch never removes an id from the store. -/
theorem mem_ids_markSeen_mono :
    ∀ (jobs : List Job) (st : SeenStore) (n : Bool) (now : ℕ) {i : String},
      i ∈ getSeenJobIds st → i ∈ getSeenJobIds (markJobsSeen st jobs n now)
  | [], _, _, _, _, h => h
  | q :: t, st, n, now, i, h => by
    rw [markJobsSeen, List.foldl_cons]
    exact mem_ids_markSeen_mono t _ n now (mem_ids_upsert_mono st q n now h)

/-- After marking a batch, every id of the batch is stored. -/
theorem mem_ids_markSeen :
    ∀ (jobs : List Job) (st : SeenStore) (n : Bool) (now : ℕ) (j : Job),
      j ∈ jobs → j.id ∈ getSeenJobIds (markJobsSeen st jobs n now)
  | [], _, _, _, _, h => absurd h (List.not_mem_nil _)
  | q :: t, st, n, now, j, h => by
    rw [markJobsSeen, List.foldl_cons]
    rcases List.mem_cons.mp h with rfl | ht
    · exact mem_ids_markSeen_mono t _ n now (mem_ids_upsert_self st j n now)
    · exact mem_ids_markSeen t _ n now j ht

/-!  ### Claims about the seen-store -/

/-- Demonstration fixtures for the seen-store claims. -/
def demoJob : Job :=
  { id := "j1", title := "t", company := "c", location := "l",
    salary := none, url := "u", source := "s" }

/-- A record stored at time 0, not yet notified. -/
def demoRec0 : SeenRecord := ⟨"j1", "t", "c", "u", "s", 0, false⟩

/-- C3: `markSeen` is an unconditional last-writer-wins upsert: whatever the
prior store contents (hence whatever earlier `markSeen` calls produced), the
stored record for a posting id equals the values of the most recent call
writing that id, including the `notified` flag. -/
theorem markSeen_last_writer_wins (store : SeenStore) (jobs : List Job)
    (notified : Bool) (now : ℕ) (j : Job) (pre post : List Job)
    (hsplit : jobs = pre ++ j :: post) (hlast : ∀ q ∈ post, q.id ≠ j.id) :
    lookupId (markJobsSeen store jobs notified now) j.id =
      some ⟨j.id, j.title, j.company, j.url, j.source, now, notified⟩ := by
  subst hsplit
  rw [markJobsSeen, List.foldl_append, List.foldl_cons]
  rw [show List.foldl (fun s q => upsertSeen s q notified now)
      (upsertSeen (List.foldl (fun s q => upsertSeen s q notified now) store pre)
        j notified now) post =
    markJobsSeen
      (upsertSeen (List.foldl (fun s q => upsertSeen s q notified now) store pre)
        j notified now) post notified now from rfl]
  rw [lookupId_markSeen_untouched j.id post _ notified now hlast]
  exact lookupId_upsert_self _ j notified now

/-- Witness for C3, which also exhibits the legal demotion: after
`markSeen([demoJob], notified=true)` at time 7 and then
`markSeen([demoJob], notified=false)` at time 9, the stored record carries
`notified = false`. -/
theorem markSeen_last_writer_wins_witness :
    lookupId (markJobsSeen (markJobsSeen [] [demoJob] true 7) [demoJob] false 9)
        "j1" = some ⟨"j1", "t", "c", "u", "s", 9, false⟩ :=
  markSeen_last_writer_wins (markJobsSeen [] [demoJob] true 7) [demoJob]
    false 9 demoJob [] [] rfl (by decide)

/-- C4 (code bug): re-marking an already stored posting resets its
`first_seen` timestamp: the `INSERT OR REPLACE` of `mark_jobs_seen` deletes
the old row and inserts a fresh one whose `first_seen` takes the default
`CURRENT_TIMESTAMP`.  Here a record first seen at time 0 is re-marked at
time 5 and its stored `firstSeen` becomes 5. -/
theorem markSeen_resets_firstSeen :
    demoRec0.firstSeen = 0 ∧
    Option.map SeenRecord.firstSeen (lookupId [demoRec0] "j1") = some 0 ∧
    Option.map SeenRecord.firstSeen
      (lookupId (markJobsSeen [demoRec0] [demoJob] true 5) "j1") = some 5 := by
  decide

/-- C8: with no intervening `markSeen`, running `filterNew` again on the
store it returned gives the same batch; and after `markSeen(batch, true)`,
`filterNew(batch)` returns the empty list. -/
theorem filterNew_idempotent_markSeen_empties (store : SeenStore)
    (jobs : List Job) (now : ℕ) :
    (filterNewJobs (filterNewJobs store jobs).1 jobs).2 =
      (filterNewJobs store jobs).2 ∧
    (filterNewJobs (markJobsSeen store jobs true now) jobs).2 = [] := by
  refine ⟨rfl, ?_⟩
  unfold filterNewJobs
  simp only
  rw [List.filter_eq_nil_iff]
  intro j hj
  have hc : (getSeenJobIds (markJobsSeen store jobs true now)).contains j.id = true :=
    List.elem_iff.mpr (mem_ids_markSeen jobs store true now j hj)
  simp [hc, mem_ids_markSeen jobs store true now j hj]

/-- C10: `filterNew` is read-only: it executes a single SELECT, so the
store it passes on is exactly the store it was given, every record
(including `firstSeen` and `notified`) untouched. -/
theorem filterNew_readonly (store : SeenStore) (jobs : List Job) :
    (filterNewJobs store jobs).1 = store ∧
    ∀ i, lookupId (filterNewJobs store jobs).1 i = lookupId store i :=
  ⟨rfl, fun _ => rfl⟩

/-!  ### Claims about the fit scorer -/

/-- The skill-match component never exceeds 100. -/
theorem fitSkillMatch_le (skills : List String) (combined : String) :
    fitSkillMatch skills combined ≤ 100 := by
  unfold fitSkillMatch
  split
  · omega
  · exact min_le_left _ _

/-- The title-match component never exceeds 100. -/
theorem fitTitleMatch_le (jt : List String) (cj : Option CurrentJob)
    (jtl : String) : fitTitleMatch jt cj jtl ≤ 100 := by
  unfold fitTitleMatch
  cases cj <;> dsimp only <;> split_ifs <;> omega

/-- The experience-match component never exceeds 100. -/
theorem fitExperienceMatch_le (y : ℕ) (certs : List String)
    (combined : String) : fitExperienceMatch y certs combined ≤ 100 := by
  unfold fitExperienceMatch
  dsimp only
  split_ifs <;> simp only [Bool.and_eq_true] at * <;> omega

/-- The overall score never exceeds 100 when its inputs are in range. -/
theorem fitOverallScore_le (s t e : ℕ) (hs : s ≤ 100) (ht : t ≤ 100)
    (he : e ≤ 100) : fitOverallScore s t e ≤ 100 := by
  unfold fitOverallScore
  dsimp only
  split_ifs
  · exact min_le_left _ _
  · omega

/-- C7: every fit score, with or without a loaded resume, has all four
components within 0..100. -/
theorem fit_score_bounds (resume : Option Resume) (cj : Option CurrentJob)
    (jobTitle jobDescription jobLocation jobCompany : String) :
    0 ≤ (calculateFitScore resume cj jobTitle jobDescription jobLocation jobCompany).skillMatch ∧
    (calculateFitScore resume cj jobTitle jobDescription jobLocation jobCompany).skillMatch ≤ 100 ∧
    0 ≤ (calculateFitScore resume cj jobTitle jobDescription jobLocation jobCompany).titleMatch ∧
    (calculateFitScore resume cj jobTitle jobDescription jobLocation jobCompany).titleMatch ≤ 100 ∧
    0 ≤ (calculateFitScore resume cj jobTitle jobDescription jobLocation jobCompany).experienceMatch ∧
    (calculateFitScore resume cj jobTitle jobDescription jobLocation jobCompany).experienceMatch ≤ 100 ∧
    0 ≤ (calculateFitScore resume cj jobTitle jobDescription jobLocation jobCompany).overallScore ∧
    (calculateFitScore resume cj jobTitle jobDescription jobLocation jobCompany).overallScore ≤ 100 := by
  cases resume with
  | none =>
    refine ⟨Nat.zero_le _, ?_, Nat.zero_le _, ?_, Nat.zero_le _, ?_, Nat.zero_le _, ?_⟩ <;>
      exact (by decide : (50 : ℕ) ≤ 100)
  | some r =>
    unfold calculateFitScore
    dsimp only
    refine ⟨Nat.zero_le _, fitSkillMatch_le _ _, Nat.zero_le _, fitTitleMatch_le _ _ _,
      Nat.zero_le _, fitExperienceMatch_le _ _ _, Nat.zero_le _,
      fitOverallScore_le _ _ _ (fitSkillMatch_le _ _) (fitTitleMatch_le _ _ _)
        (fitExperienceMatch_le _ _ _)⟩

/-- Fixture resume for the C6 counterexample: no skills, no titles, no
certifications, five years of experience. -/
def resC6 : Resume := { rawText := "", experienceYears := 5 }

/-- C6 counterexample: on this resume and the posting titled "zzz" the
scorer computes skill 50, title 40, experience 85 and overall
`int(50*0.35 + 40*0.40 + 85*0.25) = int(54.75) = 54`, while the claimed
`round(...)` would give 55: the overall score is truncated, not rounded. -/
theorem fit_overall_not_rounded :
    (calculateFitScore (some resC6) none "zzz" "" "" "").skillMatch = 50 ∧
    (calculateFitScore (some resC6) none "zzz" "" "" "").titleMatch = 40 ∧
    (calculateFitScore (some resC6) none "zzz" "" "" "").experienceMatch = 85 ∧
    (calculateFitScore (some resC6) none "zzz" "" "" "").overallScore = 54 ∧
    round ((50 * (35 : ℚ) + 40 * 40 + 85 * 25) / 100) = 55 ∧
    ((calculateFitScore (some resC6) none "zzz" "" "" "").overallScore : ℤ) ≠
      round ((50 * (35 : ℚ) + 40 * 40 + 85 * 25) / 100) := by
  have hround : round ((50 * (35 : ℚ) + 40 * 40 + 85 * 25) / 100) = 55 := by
    rw [round_eq, show (50 * (35 : ℚ) + 40 * 40 + 85 * 25) / 100 + 1 / 2 = 55 + 1 / 4 by
      norm_num]
    rw [Int.floor_eq_iff]
    norm_num
  refine ⟨by decide, by decide, by decide, by decide, hround, ?_⟩
  rw [hround]
  decide

/-- C6 amended: every fit score consists of components `s`, `t`, `e`
(reported as `skillMatch`, `titleMatch`, `experienceMatch`) whose overall
score is the weighted sum `s*0.35 + t*0.40 + e*0.25` truncated to an
integer (Python `int`; exact integer division since all terms are
nonnegative), with the +10 bonus capped at 100 applied exactly when both
`s ≥ 80` and `t ≥ 80`. -/
theorem fit_overall_truncated_weighted_sum (resume : Option Resume)
    (cj : Option CurrentJob) (jobTitle jobDescription jobLocation jobCompany : String) :
    ∃ s t e : ℕ,
      calculateFitScore resume cj jobTitle jobDescription jobLocation jobCompany =
        ⟨(if 80 ≤ s ∧ 80 ≤ t then min 100 ((s * 35 + t * 40 + e * 25) / 100 + 10)
          else (s * 35 + t * 40 + e * 25) / 100), s, t, e⟩ :=
  match resume with
  | none => ⟨50, 50, 50, rfl⟩
  | some _ => ⟨_, _, _, rfl⟩

/-!  ### Claims about experience-years extraction -/

/-- Folding `max` over the hits of an option-valued scan equals folding
`max` over the collected hits. -/
theorem foldl_max_filterMap {β : Type} (f : β → Option ℕ) :
    ∀ (ps : List β) (acc : ℕ),
      ps.foldl (fun a m =>
        match f m with
        | some n => Nat.max a n
        | none => a) acc =
      (ps.filterMap f).foldl Nat.max acc
  | [], _ => rfl
  | p :: t, acc => by
    cases hf : f p <;>
      simp [List.filterMap_cons, hf, List.foldl_cons, foldl_max_filterMap f t]

/-- Fixture text for the C9 counterexample: the first pattern first matches
"2 years experience" even though a later match captures 10. -/
def textC9 : String := "2 years experience and 10 years experience"

/-- C9 counterexample: `_parse_resume` takes only the FIRST (`re.search`)
match of each variant, so this text parses to 2, while the maximum over
all matches of all variants is 10. -/
theorem parseExperience_first_match_only :
    parseExperienceYears textC9 = 2 ∧
    allMatchesExperienceYears textC9 = 10 ∧
    parseExperienceYears textC9 ≠ allMatchesExperienceYears textC9 := by
  refine ⟨by decide, by decide, ?_⟩
  decide

/-- C9 amended: the parsed experience years equal the maximum over the
three variants of the integer captured by the first (leftmost) match of
each variant in the lower-cased text, and 0 when no variant matches. -/
theorem parseExperience_eq_max_leftmost (text : String) :
    parseExperienceYears text = maxLeftmostCaptures text ∧
    ((∀ m ∈ yearPatterns, searchCapture m (pyLower text).data = none) →
      parseExperienceYears text = 0) := by
  have h1 : parseExperienceYears text = maxLeftmostCaptures text :=
    foldl_max_filterMap (fun m => searchCapture m (pyLower text).data) yearPatterns 0
  refine ⟨h1, fun hall => ?_⟩
  rw [h1]
  unfold maxLeftmostCaptures
  rw [List.filterMap_eq_nil_iff.mpr hall]
  rfl

/-- Witness for the amended C9 at a text with no match. -/
theorem parseExperience_eq_max_leftmost_witness :
    (∀ m ∈ yearPatterns, searchCapture m (pyLower "zz").data = none) ∧
    parseExperienceYears "zz" = 0 :=
  ⟨by decide, (parseExperience_eq_max_leftmost "zz").2 (by decide)⟩

/-!  ### Claims about ranking -/

/-- The scorer attaches the job it scored. -/
theorem job_calculateJobScore (rm : RMState) (job : Job) :
    (calculateJobScore rm job).job = job := rfl

/-- A resume-manager state with nothing loaded. -/
def rmNone : RMState := {}

/-- A posting that scores negatively (sales role at a staffing agency). -/
def salesJob : Job :=
  { id := "2", title := "Sales Representative", company := "Staffing Co",
    location := "NYC", salary := none, url := "u", source := "s" }

/-- C1: the ranker returns at most `k` items, in non-increasing order of
combined score, and no posting with combined score ≤ 0 appears in the
result. -/
theorem rank_truncates_sorts_filters (rm : RMState) (jobs : List Job) (k : ℕ) :
    (rankJobsScored rm jobs k).length ≤ k ∧
    List.Pairwise scoreGe (rankJobsScored rm jobs k) ∧
    (∀ sj ∈ rankJobsScored rm jobs k, 0 < sj.score2) ∧
    (∀ j ∈ jobs, (calculateJobScore rm j).score2 ≤ 0 →
      j ∉ rankJobs rm jobs k) := by
  have hsorted : List.Pairwise scoreGe (sortedBatch rm jobs) :=
    List.sorted_insertionSort scoreGe (scoredBatch rm jobs)
  have hkept : List.Pairwise scoreGe (keptBatch rm jobs) :=
    List.Pairwise.sublist (List.filter_sublist _) hsorted
  refine ⟨List.length_take_le k _,
    List.Pairwise.sublist (List.take_sublist k _) hkept, ?_, ?_⟩
  · intro sj hm
    have hmem : sj ∈ List.filter (fun x => decide (0 < x.score2)) (sortedBatch rm jobs) :=
      (List.take_sublist k _).subset hm
    have hdec := List.of_mem_filter hmem
    exact of_decide_eq_true hdec
  · intro j _ hle hmem
    rcases List.mem_map.mp hmem with ⟨sj, hsj, hjob⟩
    have hks : sj ∈ List.filter (fun x => decide (0 < x.score2)) (sortedBatch rm jobs) :=
      (List.take_sublist k _).subset hsj
    have hdec2 := List.of_mem_filter hks
    have hpos : 0 < sj.score2 := of_decide_eq_true hdec2
    have hsortmem : sj ∈ sortedBatch rm jobs :=
      (List.filter_sublist _).subset hks
    have hscored : sj ∈ scoredBatch rm jobs :=
      (List.mem_insertionSort scoreGe).mp hsortmem
    rcases List.mem_map.mp hscored with ⟨j2, _, hcalc⟩
    have hj2 : j2 = j := by
      rw [← hjob, ← hcalc]
      exact (job_calculateJobScore rm j2).symm
    rw [hj2] at hcalc
    rw [hcalc] at hle
    omega

/-- Witness for C1 at a posting whose combined score is negative. -/
theorem rank_truncates_sorts_filters_witness :
    (calculateJobScore rmNone salesJob).score2 ≤ 0 ∧
    salesJob ∉ rankJobs rmNone [salesJob] 5 :=
  ⟨by decide,
    (rank_truncates_sorts_filters rmNone [salesJob] 5).2.2.2 salesJob
      (by decide) (by decide)⟩

/-- First of two equal-scoring postings (they differ only in id). -/
def jrw1 : Job :=
  { id := "1", title := "zz", company := "zz", location := "remote",
    salary := none, url := "u", source := "s" }

/-- Second of two equal-scoring postings. -/
def jrw2 : Job :=
  { id := "2", title := "zz", company := "zz", location := "remote",
    salary := none, url := "u", source := "s" }

/-- C2: the descending sort is stable: two scored postings with equal
combined scores that appear in input order `a` before `b` still appear in
that order after sorting, after the positive-score filter (when their
common score is positive), and the final output is a prefix truncation of
that filtered list, so their order also survives into the ranked output. -/
theorem rank_sort_stable (rm : RMState) (jobs : List Job) (k : ℕ)
    (a b : ScoredJob) (hab : a.score2 = b.score2)
    (hsub : List.Sublist [a, b] (scoredBatch rm jobs)) :
    List.Sublist [a, b] (sortedBatch rm jobs) ∧
    (0 < a.score2 → List.Sublist [a, b] (keptBatch rm jobs)) ∧
    rankJobsScored rm jobs k = (keptBatch rm jobs).take k := by
  have hpair : List.Pairwise scoreGe [a, b] :=
    List.pairwise_pair.mpr (le_of_eq hab.symm)
  have h1 : List.Sublist [a, b] (sortedBatch rm jobs) :=
    List.sublist_insertionSort hpair hsub
  refine ⟨h1, ?_, rfl⟩
  intro hpos
  have hb : 0 < b.score2 := hab ▸ hpos
  have h2 := List.Sublist.filter (fun sj => decide (0 < sj.score2)) h1
  have hfix : List.filter (fun sj => decide (0 < sj.score2)) [a, b] = [a, b] := by
    simp [List.filter_cons, hpos, hb]
  rwa [hfix] at h2

/-- Witness for C2: two equal-scoring positive postings stay in input
order through the filtered, sorted list. -/
theorem rank_sort_stable_witness :
    (calculateJobScore rmNone jrw1).score2 = (calculateJobScore rmNone jrw2).score2 ∧
    0 < (calculateJobScore rmNone jrw1).score2 ∧
    List.Sublist [calculateJobScore rmNone jrw1, calculateJobScore rmNone jrw2]
      (keptBatch rmNone [jrw1, jrw2]) :=
  ⟨by decide, by decide,
    (rank_sort_stable rmNone [jrw1, jrw2] 2 _ _ (by decide)
      (List.Sublist.refl _)).2.1 (by decide)⟩

/-!  ### Claim about the remote/hybrid location bonus -/

/-- A posting whose location mentions both remote and hybrid. -/
def jobRH : Job :=
  { id := "3", title := "zz", company := "zz", location := "remote hybrid",
    salary := none, url := "u", source := "s" }

/-- C5 counterexample: for a location containing both "remote" and
"hybrid" the `elif` applies only the remote bonus (20): the combined score
equals that of the same posting with location "remote", and the location
block contributes 20, not 20 + 15. -/
theorem remote_hybrid_not_additive :
    pyContains (pyLower jobRH.location) "remote" = true ∧
    pyContains (pyLower jobRH.location) "hybrid" = true ∧
    remoteHybridPts (pyLower jobRH.location) = 20 ∧
    (calculateJobScore rmNone jobRH).score2 = (calculateJobScore rmNone jrw1).score2 ∧
    remoteHybridPts (pyLower jobRH.location) ≠ 20 + 15 := by
  decide

/-- C5 amended: the remote and hybrid bonuses are exclusive, remote first:
when the location contains "remote" (here also "hybrid"), the
remote/hybrid block contributes exactly the remote bonus 20 — the hybrid
bonus is not added — and the combined score is otherwise the unchanged sum
of the remaining blocks (the geography block among them). -/
theorem remote_takes_precedence_over_hybrid (rm : RMState) (job : Job)
    (hr : pyContains (pyLower job.location) "remote" = true)
    (_hh : pyContains (pyLower job.location) "hybrid" = true) :
    remoteHybridPts (pyLower job.location) = 20 ∧
    (calculateJobScore rm job).score2 =
      2 * (titleKeywordPts (pyLower job.title) + seniorityPts (pyLower job.title) +
        salaryPts job.salary + 20 + geoPts (pyLower job.location) +
        companyPts (pyLower job.company) + staffingKwPts (pyLower job.company) +
        growthRolePts (pyLower job.title) + growthCompanyPts (pyLower job.company) +
        interviewPts (pyLower job.company) + entryPts (pyLower job.title) +
        avoidPts (pyLower job.title) + excludeRolePts (pyLower job.title) +
        overqualPts (pyLower job.title)) +
      (match rm.resume with
       | some r => ((calculateFitScore (some r) rm.currentJob job.title
           (job.descriptionSnippet.getD "") job.location job.company).overallScore : ℤ)
       | none => 0) := by
  have h20 : remoteHybridPts (pyLower job.location) = 20 := by
    unfold remoteHybridPts
    rw [if_pos hr]
  refine ⟨h20, ?_⟩
  obtain ⟨or, oc⟩ := rm
  cases or <;> (unfold calculateJobScore relevancePts; dsimp only; rw [h20])

/-- Witness for the amended C5 at the both-mentions posting. -/
theorem remote_takes_precedence_over_hybrid_witness :
    pyContains (pyLower jobRH.location) "remote" = true ∧
    pyContains (pyLower jobRH.location) "hybrid" = true ∧
    remoteHybridPts (pyLower jobRH.location) = 20 :=
  ⟨by decide, by decide,
    (remote_takes_precedence_over_hybrid rmNone jobRH (by decide) (by decide)).1⟩

end JobScout
